import Mathlib

set_option linter.dupNamespace false

/-!
Shallow embedding of `cursor.go` from the promptui repository.

Go runes are modelled as `Char`, `[]rune` as `List Char`, Go `string` as
`String` (converted with `String.toList` / `String.mk` exactly where the Go
code converts), Go `int` as `Int`, and `nil`-able slices as `Option`.
Each Go method that mutates its receiver becomes a function
`Cursor → … → Cursor`; `Listen`, which both mutates and returns a triple,
returns the new state paired with the triple.
-/

namespace Promptui

/-- Type `Pointer` translates the runes under the cursor into the runes displayed
for the cursor (from `type Pointer func(to []rune) []rune`). -/
def Pointer : Type := List Char → List Char

/-- Embeds `func defaultCursor(ignored []rune) []rune { return []rune("█") }` -/
def defaultCursor : Pointer := fun _ => ['█']

/-- Embeds `func blockCursor`: it returns the runes of
`fmt.Sprintf("\\e[7m%s\\e[0m", string(input))`.  In a Go string literal
`\\e` denotes the two characters backslash and `e`, not the ESC control
character. -/
def blockCursor : Pointer := fun input =>
  ['\\', 'e', '[', '7', 'm'] ++ input ++ ['\\', 'e', '[', '0', 'm']

/-- Embeds `func pipeCursor`: a pipe glyph prepended to the
input. -/
def pipeCursor : Pointer := fun input => ['|'] ++ input

/-- Embeds `var DefaultCursor Pointer = defaultCursor`. -/
def DefaultCursor : Pointer := defaultCursor

/-- Embeds `var BlockCursor Pointer = blockCursor`. -/
def BlockCursor : Pointer := blockCursor

/-- Embeds `var PipeCursor Pointer = pipeCursor`. -/
def PipeCursor : Pointer := pipeCursor

/-- Embeds the `Cursor` struct: the pointer strategy, the input buffer, the caret
position and the private `erase` flag. -/
structure Cursor where
  Cursor : Pointer
  Input : List Char
  Position : Int
  erase : Bool

/-- Embeds `func (c *Cursor) correctPosition()`: clamp `Position` into
`[0, len(Input)]`. -/
def correctPosition (c : Cursor) : Cursor :=
  let p := if c.Position > (c.Input.length : Int) then (c.Input.length : Int) else c.Position
  let p := if p < 0 then 0 else p
  { c with Position := p }

/-- Embeds `func (c *Cursor) Place(position int)`: absolute placement followed by the
clamp. -/
def Place (c : Cursor) (position : Int) : Cursor :=
  correctPosition { c with Position := position }

/-- Embeds `func (c *Cursor) End()`: `c.Place(len(c.Input))`. -/
def End (c : Cursor) : Cursor :=
  Place c (c.Input.length : Int)

/-- Embeds `func (c *Cursor) Start()`: `c.Place(0)`. -/
def Start (c : Cursor) : Cursor :=
  Place c 0

/-- Embeds `func NewCursor`:
a `nil` pointer falls back to `defaultCursor`; the struct literal sets
`Position: len(startingInput)` which `Start`/`End` immediately overwrite. -/
def NewCursor (startingInput : String) (pointer : Option Pointer) (eraseDefault : Bool) :
    Cursor :=
  let pointer := pointer.getD defaultCursor
  let cur : Cursor :=
    { Cursor := pointer, Position := (startingInput.length : Int),
      Input := startingInput.toList, erase := eraseDefault }
  if eraseDefault then Start cur else End cur

/-- Embeds `func (c *Cursor) Move(shift int)`: relative movement followed by the
clamp. -/
def Move (c : Cursor) (shift : Int) : Cursor :=
  correctPosition { c with Position := c.Position + shift }

/-- Embeds `func format(a []rune, c *Cursor) string`: splice the pointer output into
`a` at `c.Position`.  When the position indexes an existing rune
(`i < len(a)`) the pointer is applied to the one-rune slice `a[i:i+1]` and
replaces it; otherwise the pointer is applied to the empty slice and appended.
(Go panics on a negative index; every caller has `Position` clamped
non-negative, where `Int.toNat` agrees with the Go index.) -/
def format (a : List Char) (c : Cursor) : List Char :=
  let i := c.Position
  if i < (a.length : Int) then
    a.take i.toNat ++ c.Cursor ((a.drop i.toNat).take 1) ++ a.drop (i.toNat + 1)
  else
    a ++ c.Cursor []

/-- Embeds `func (c *Cursor) Format() string`: render `Input` with the cursor. -/
def Format (c : Cursor) : List Char :=
  format c.Input c

/-- Embeds `func (c *Cursor) FormatMask(mask rune)`: render a same-length
buffer of `mask` runes with the cursor (`make([]rune, len(c.Input))` filled
with `mask`). -/
def FormatMask (c : Cursor) (mask : Char) : List Char :=
  format (List.replicate c.Input.length mask) c

/-- Embeds `func (c *Cursor) Update(newInput string)`: splice `newInput` into `Input`
before `Position` (`append(a[:i], append(b, a[i:]...)...)`), then
`c.Move(len(b))`. -/
def Update (c : Cursor) (newInput : String) : Cursor :=
  let a := c.Input
  let b := newInput.toList
  let i := c.Position
  Move { c with Input := a.take i.toNat ++ b ++ a.drop i.toNat } (b.length : Int)

/-- Embeds `func (c *Cursor) Get() string`: a copy of the input. -/
def Get (c : Cursor) : String :=
  String.mk c.Input

/-- Embeds `func (c *Cursor) Replace(input string)`: install `input` as the buffer
and move to the end. -/
def Replace (c : Cursor) (input : String) : Cursor :=
  End { c with Input := input.toList }

/-- Embeds `func (c *Cursor) Backspace()`: no-op at position 0, otherwise remove the
rune before the caret (`a[:i-1]` at the end, `append(a[:i-1], a[i:]...)`
mid-buffer) and `c.Move(-1)`. -/
def Backspace (c : Cursor) : Cursor :=
  let a := c.Input
  let i := c.Position
  if i = 0 then
    c
  else
    let c :=
      if i = (a.length : Int) then
        { c with Input := a.take (i.toNat - 1) }
      else
        { c with Input := a.take (i.toNat - 1) ++ a.drop i.toNat }
    Move c (-1)

/-- Modelled from the spec: the key-code constants (`KeyEnter`,
`KeyBackspace`, `KeyForward`, `KeyBackward`) are declared outside this file;
the spec lists them as the abstract symbols ENTER/SUBMIT, BACKSPACE,
ARROW-FORWARD, ARROW-BACKWARD, distinct from each other, from the NONE key
(rune 0) and from literal character input.  They are modelled as the
corresponding distinct control code points. -/
def KeyEnter : Char := Char.ofNat 13

/-- Modelled from the spec: see `KeyEnter`. -/
def KeyBackspace : Char := Char.ofNat 127

/-- Modelled from the spec: see `KeyEnter`. -/
def KeyForward : Char := Char.ofNat 6

/-- Modelled from the spec: see `KeyEnter`. -/
def KeyBackward : Char := Char.ofNat 2

/-- Embeds `func (c *Cursor) Listen(line []rune, pos int, key rune)`:
if `line` is non-nil first `c.Update(string(line))`, then dispatch on `key`.
Returns the new state together with the returned triple (Go mutates the
receiver).  The `pos` argument is ignored by the body, as in the source. -/
def Listen (c : Cursor) (line : Option (List Char)) (pos : Int) (key : Char) :
    Cursor × (List Char × Int × Bool) :=
  let _ := pos
  let c := match line with
    | some l => Update c (String.mk l)
    | none => c
  if key = Char.ofNat 0 then
    (c, ((Get c).toList, c.Position, true))
  else if key = KeyEnter then
    (c, ((Get c).toList, c.Position, false))
  else if key = KeyBackspace then
    let c := if c.erase then Replace { c with erase := false } "" else c
    let c := Backspace c
    (c, ((Get c).toList, c.Position, true))
  else if key = KeyForward then
    let c := Move { c with erase := false } 1
    (c, ((Get c).toList, c.Position, true))
  else if key = KeyBackward then
    let c := Move c (-1)
    (c, ((Get c).toList, c.Position, true))
  else
    let c :=
      if c.erase then
        Update { c with erase := false } (String.mk (line.getD []))
      else c
    (c, ((Get c).toList, c.Position, true))

/-- The position invariant from the spec: `0 ≤ Position ≤ length Input`. -/
def posInv (c : Cursor) : Prop :=
  0 ≤ c.Position ∧ c.Position ≤ (c.Input.length : Int)

instance (c : Cursor) : Decidable (posInv c) := by
  unfold posInv; infer_instance

/-- One call of the public mutating API, used to state invariants over
arbitrary call sequences. -/
inductive Op where
  | place : Int → Op
  | move : Int → Op
  | start : Op
  | toEnd : Op
  | update : String → Op
  | replace : String → Op
  | backspace : Op
  | listen : Option (List Char) → Int → Char → Op

/-- Performs one API call on a cursor state (for `listen`, keeping the new
state and discarding the returned triple). -/
def applyOp (c : Cursor) : Op → Cursor
  | .place p => Place c p
  | .move d => Move c d
  | .start => Start c
  | .toEnd => End c
  | .update t => Update c t
  | .replace t => Replace c t
  | .backspace => Backspace c
  | .listen line pos key => (Listen c line pos key).1

/-- Runs a whole sequence of `Listen` events, keeping only the state. -/
def runEvents (c : Cursor) (evs : List (Option (List Char) × Int × Char)) : Cursor :=
  evs.foldl (fun s e => (Listen s e.1 e.2.1 e.2.2).1) c

/- ### Helper lemmas -/

theorem correctPosition_Position (c : Cursor) :
    (correctPosition c).Position = max 0 (min c.Position (c.Input.length : Int)) := by
  unfold correctPosition
  dsimp only
  split_ifs <;> omega

theorem correctPosition_Input (c : Cursor) : (correctPosition c).Input = c.Input := rfl

theorem correctPosition_erase (c : Cursor) : (correctPosition c).erase = c.erase := rfl

theorem posInv_correctPosition (c : Cursor) : posInv (correctPosition c) := by
  constructor
  · rw [correctPosition_Position]; omega
  · rw [correctPosition_Position, correctPosition_Input]; omega

theorem posInv_Update (c : Cursor) (t : String) : posInv (Update c t) :=
  posInv_correctPosition _

theorem posInv_Backspace (c : Cursor) : posInv (Backspace c) := by
  unfold Backspace
  dsimp only
  split_ifs with h0 hend
  · exact ⟨by omega, by omega⟩
  · exact posInv_correctPosition _
  · exact posInv_correctPosition _

theorem posInv_Listen (c : Cursor) (h : posInv c) (line : Option (List Char))
    (pos : Int) (key : Char) : posInv (Listen c line pos key).1 := by
  unfold Listen
  have hrec : posInv (match line with
      | some l => Update c (String.mk l)
      | none => c) := by
    cases line
    · exact h
    · exact posInv_Update _ _
  dsimp only
  split_ifs <;>
    first
      | exact hrec
      | exact posInv_Backspace _
      | exact posInv_correctPosition _

theorem posInv_NewCursor (s : String) (ptr : Option Pointer) (b : Bool) :
    posInv (NewCursor s ptr b) := by
  unfold NewCursor
  dsimp only
  split_ifs <;> exact posInv_correctPosition _

theorem Move_Position (c : Cursor) (d : Int) :
    (Move c d).Position = max 0 (min (c.Position + d) (c.Input.length : Int)) :=
  correctPosition_Position _

theorem Move_Input (c : Cursor) (d : Int) : (Move c d).Input = c.Input := rfl

theorem Move_erase (c : Cursor) (d : Int) : (Move c d).erase = c.erase := rfl

theorem Move_Cursor (c : Cursor) (d : Int) : (Move c d).Cursor = c.Cursor := rfl

theorem Update_Input (c : Cursor) (t : String) :
    (Update c t).Input
      = c.Input.take c.Position.toNat ++ t.toList ++ c.Input.drop c.Position.toNat := rfl

theorem Update_erase (c : Cursor) (t : String) : (Update c t).erase = c.erase := rfl

theorem Update_Cursor (c : Cursor) (t : String) : (Update c t).Cursor = c.Cursor := rfl

theorem Update_Position (c : Cursor) (h : posInv c) (t : String) :
    (Update c t).Position = c.Position + (t.length : Int) := by
  obtain ⟨h0, h1⟩ := h
  unfold Update
  dsimp only
  rw [Move_Position]
  simp only [List.length_append, List.length_take, List.length_drop]
  have hs : t.length = t.toList.length := rfl
  push_cast
  omega

theorem Backspace_Input (c : Cursor) (h : posInv c) (hp : 0 < c.Position) :
    (Backspace c).Input
      = c.Input.take (c.Position.toNat - 1) ++ c.Input.drop c.Position.toNat := by
  obtain ⟨h0, h1⟩ := h
  unfold Backspace
  dsimp only
  rw [if_neg (by omega)]
  split_ifs with hend
  · rw [Move_Input]
    have hd : c.Input.drop c.Position.toNat = [] := by
      apply List.drop_eq_nil_of_le
      omega
    rw [hd, List.append_nil]
  · rw [Move_Input]

theorem Backspace_Position (c : Cursor) (h : posInv c) (hp : 0 < c.Position) :
    (Backspace c).Position = c.Position - 1 := by
  obtain ⟨h0, h1⟩ := h
  unfold Backspace
  dsimp only
  rw [if_neg (by omega)]
  split_ifs with hend
  · rw [Move_Position]
    simp only [List.length_take]
    push_cast
    omega
  · rw [Move_Position]
    simp only [List.length_append, List.length_take, List.length_drop]
    push_cast
    omega

theorem Backspace_erase (c : Cursor) : (Backspace c).erase = c.erase := by
  unfold Backspace
  dsimp only
  split_ifs <;> rfl

theorem Backspace_Cursor (c : Cursor) : (Backspace c).Cursor = c.Cursor := by
  unfold Backspace
  dsimp only
  split_ifs <;> rfl

theorem Replace_erase (c : Cursor) (t : String) : (Replace c t).erase = c.erase := rfl

theorem Listen_erase_of_false (c : Cursor) (line : Option (List Char)) (pos : Int)
    (key : Char) (h : c.erase = false) : (Listen c line pos key).1.erase = false := by
  unfold Listen
  have hrec : (match line with
      | some l => Update c (String.mk l)
      | none => c).erase = false := by
    cases line
    · exact h
    · rw [Update_erase]; exact h
  dsimp only
  split_ifs with h0 h1 h2 h3 h4 h5 <;>
    simp_all [Backspace_erase, Update_erase, Move_erase, Replace_erase]

/- ### Claims -/

/-- C2: after construction, the position invariant `0 ≤ Position ≤ length Input`
holds, and it still holds after every sequence of `Place`, `Move`, `Start`,
`End`, `Update`, `Replace`, `Backspace` and `Listen` calls; every operation
is total, out-of-range position requests being clamped rather than
rejected. -/
theorem C2_position_invariant (s : String) (ptr : Option Pointer) (b : Bool)
    (ops : List Op) : posInv (List.foldl applyOp (NewCursor s ptr b) ops) := by
  have hstep : ∀ (c : Cursor) (op : Op), posInv c → posInv (applyOp c op) := by
    intro c op hc
    cases op <;>
      first
        | exact posInv_correctPosition _
        | exact posInv_Backspace _
        | exact posInv_Listen _ hc _ _ _
  have hfold : ∀ (l : List Op) (c : Cursor), posInv c → posInv (List.foldl applyOp c l) := by
    intro l
    induction l with
    | nil => exact fun c hc => hc
    | cons op l ih => exact fun c hc => ih _ (hstep c op hc)
  exact hfold ops _ (posInv_NewCursor s ptr b)

/-- C1: evaluation of `Listen` at the claimed scenario.  Constructing with
startingInput "yes" and eraseDefault true does give Position 0 with the
erase flag set, but the first "other"-bucket key event with literal input
"n" does not clear the placeholder: the reconciliation step inserts "n"
once and the erase branch then inserts the line a second time without
clearing the buffer first, so the call returns buffer "nnyes", Position 2,
continue true — not buffer "n", Position 1, as the claim states. -/
theorem C1_other_key_keeps_placeholder :
    (NewCursor "yes" none true).Position = 0
    ∧ (NewCursor "yes" none true).erase = true
    ∧ (Listen (NewCursor "yes" none true) (some ['n']) 0 'n').2
        = (['n', 'n', 'y', 'e', 's'], 2, true)
    ∧ (Listen (NewCursor "yes" none true) (some ['n']) 0 'n').2
        ≠ (['n'], 1, true) := by
  decide

/-- C5 counterexample: with a non-nil line argument the ENTER branch of
`Listen` returns the buffer and position produced by the reconciliation
`Update`, not the ones the cursor held before the call: from the state with
Input "a" and Position 1, `Listen("x", 0, ENTER)` returns ("ax", 2, false)
although the pre-call buffer was "a" and the pre-call Position was 1. -/
theorem C5_counterexample :
    (Listen ⟨DefaultCursor, ['a'], 1, false⟩ (some ['x']) 0 KeyEnter).2
        = (['a', 'x'], 2, false)
    ∧ (Listen ⟨DefaultCursor, ['a'], 1, false⟩ (some ['x']) 0 KeyEnter).2
        ≠ (['a'], 1, false) := by
  decide

/-- C5 (amended): every `Listen` call with the ENTER key returns
continue = false; when the line argument is nil the returned line and
position are exactly the buffer contents and Position the cursor held
before the call and the state is unchanged, and when a line is supplied the
returned line and position are the buffer and Position right after the
reconciliation `Update` of that line — the ENTER dispatch itself changes
nothing. -/
theorem C5_enter_returns_stop (c : Cursor) (pos : Int) (l : List Char) :
    Listen c none pos KeyEnter = (c, (c.Input, c.Position, false))
    ∧ Listen c (some l) pos KeyEnter
        = (Update c (String.mk l),
            ((Update c (String.mk l)).Input, (Update c (String.mk l)).Position, false)) :=
  ⟨rfl, rfl⟩

/-- C9: evaluation of the three marker strategies.  `DefaultCursor` ignores
its input and returns the single full-block glyph, and `PipeCursor` prepends
the pipe glyph to its input, as claimed; but `BlockCursor` wraps its input
in the literal five-character texts backslash-"e[7m" and backslash-"e[0m",
because the Go format string escapes the backslash: the emitted runes do
not contain the ESC control character U+001B that a terminal reverse-video
escape sequence requires, contradicting the documented behavior of
highlighting a character by inverting colors. -/
theorem C9_marker_strategies :
    (∀ r, DefaultCursor r = ['█'])
    ∧ (∀ r, PipeCursor r = '|' :: r)
    ∧ (∀ r, BlockCursor r = ['\\', 'e', '[', '7', 'm'] ++ r ++ ['\\', 'e', '[', '0', 'm'])
    ∧ BlockCursor ['b']
        ≠ [Char.ofNat 27, '[', '7', 'm', 'b', Char.ofNat 27, '[', '0', 'm'] := by
  refine ⟨fun r => rfl, fun r => rfl, fun r => rfl, by decide⟩

/-- C10: the erase flag never transitions from false to true after
construction: if it is true after a `Listen` call it was already true
before, and once it is false it remains false across every subsequent
sequence of `Listen` events of the session. -/
theorem C10_erase_monotone (c : Cursor) (line : Option (List Char)) (pos : Int)
    (key : Char) :
    ((Listen c line pos key).1.erase = true → c.erase = true)
    ∧ (c.erase = false →
        ∀ evs : List (Option (List Char) × Int × Char), (runEvents c evs).erase = false) := by
  constructor
  · intro h
    by_contra hf
    rw [Bool.not_eq_true] at hf
    rw [Listen_erase_of_false c line pos key hf] at h
    exact Bool.false_ne_true h
  · intro h evs
    induction evs generalizing c with
    | nil => exact h
    | cons e evs ih => exact ih _ (Listen_erase_of_false _ _ _ _ h)

/-- C10 witness: concrete run of the monotonicity theorem over a two-event
session starting in editing mode. -/
theorem C10_erase_monotone_witness :
    (runEvents ⟨DefaultCursor, ['a'], 1, false⟩
        [(none, 0, 'z'), (some ['q'], 0, KeyBackspace)]).erase = false :=
  (C10_erase_monotone ⟨DefaultCursor, ['a'], 1, false⟩ none 0 'z').2 rfl
    [(none, 0, 'z'), (some ['q'], 0, KeyBackspace)]

/-- C3: for every state satisfying the position invariant, `Format` splices
the marker at the caret: when Position indexes an existing character, the
prefix and suffix are untouched and the single character under the caret is
replaced by the marker output on that one character; when Position equals
the buffer length, the marker applied to the empty sequence is appended to
the whole buffer. -/
theorem C3_Format_splice (c : Cursor) (h : posInv c) :
    (∀ (hlt : c.Position.toNat < c.Input.length),
        Format c = c.Input.take c.Position.toNat
          ++ c.Cursor [c.Input.get ⟨c.Position.toNat, hlt⟩]
          ++ c.Input.drop (c.Position.toNat + 1))
    ∧ (c.Position = (c.Input.length : Int) →
        Format c = c.Input ++ c.Cursor []) := by
  obtain ⟨h0, h1⟩ := h
  constructor
  · intro hlt
    unfold Format format
    dsimp only
    rw [if_pos (by omega)]
    have hm : (c.Input.drop c.Position.toNat).take 1
        = [c.Input.get ⟨c.Position.toNat, hlt⟩] := by
      simp only [List.get_eq_getElem]
      rw [List.drop_eq_getElem_cons hlt]
      rfl
    rw [hm]
  · intro he
    unfold Format format
    dsimp only
    rw [if_neg (by omega)]

/-- C3 witness: `Format` on buffer "abc" with the pipe marker at Position 1
gives "a|bc", and on the empty buffer at Position 0 gives exactly the
marker output on the empty sequence. -/
theorem C3_Format_splice_witness :
    Format ⟨PipeCursor, ['a', 'b', 'c'], 1, false⟩ = ['a', '|', 'b', 'c']
    ∧ Format ⟨PipeCursor, [], 0, false⟩ = ['|'] := by
  constructor
  · have h := (C3_Format_splice ⟨PipeCursor, ['a', 'b', 'c'], 1, false⟩ (by decide)).1
      (by decide)
    rw [h]; rfl
  · have h := (C3_Format_splice ⟨PipeCursor, [], 0, false⟩ (by decide)).2 (by decide)
    rw [h]; rfl

/-- C4: `FormatMask` equals the caret-splice rendering of a buffer of
`length Input` copies of the mask at the same Position, and any two states
with the same buffer length, the same Position and the same marker produce
identical `FormatMask` output for the same mask — the real buffer contents
influence the output only through their count. -/
theorem C4_FormatMask_hides_content (c : Cursor) (mask : Char) :
    FormatMask c mask = format (List.replicate c.Input.length mask) c
    ∧ ∀ c2 : Cursor, c2.Input.length = c.Input.length → c2.Position = c.Position →
        c2.Cursor = c.Cursor → FormatMask c2 mask = FormatMask c mask := by
  refine ⟨rfl, ?_⟩
  intro c2 hlen hpos hcur
  unfold FormatMask format
  dsimp only
  rw [hlen, hpos, hcur]

/-- C4 witness: two states with different buffer contents and erase flags
but equal length, Position and marker render the same masked output. -/
theorem C4_FormatMask_hides_content_witness :
    FormatMask ⟨DefaultCursor, ['x', 'y', 'z'], 1, true⟩ '*'
      = FormatMask ⟨DefaultCursor, ['a', 'b', 'c'], 1, false⟩ '*' :=
  (C4_FormatMask_hides_content ⟨DefaultCursor, ['a', 'b', 'c'], 1, false⟩ '*').2
    ⟨DefaultCursor, ['x', 'y', 'z'], 1, true⟩ rfl rfl rfl

/-- C6: `Backspace` at Position 0 leaves the state unchanged (a defined
no-op), and at every Position p > 0 — at the end of the buffer or
mid-buffer — it removes exactly the character at index p − 1 and decrements
Position by one. -/
theorem C6_Backspace_behavior (c : Cursor) (h : posInv c) :
    (c.Position = 0 → Backspace c = c)
    ∧ (0 < c.Position →
        (Backspace c).Input = c.Input.eraseIdx (c.Position.toNat - 1)
        ∧ (Backspace c).Position = c.Position - 1) := by
  constructor
  · intro h0
    unfold Backspace
    dsimp only
    rw [if_pos h0]
  · intro hp
    refine ⟨?_, Backspace_Position c h hp⟩
    rw [Backspace_Input c h hp, List.eraseIdx_eq_take_drop_succ]
    have hn : c.Position.toNat - 1 + 1 = c.Position.toNat := by
      obtain ⟨h0, h1⟩ := h
      omega
    rw [hn]

/-- C6 witness: backspace mid-buffer removes the preceding character and
moves the caret back; backspace at Position 0 is the identity. -/
theorem C6_Backspace_behavior_witness :
    (Backspace ⟨DefaultCursor, ['a', 'b'], 1, false⟩).Input = ['b']
    ∧ (Backspace ⟨DefaultCursor, ['a', 'b'], 1, false⟩).Position = 0
    ∧ Backspace ⟨DefaultCursor, ['a', 'b'], 0, true⟩
        = ⟨DefaultCursor, ['a', 'b'], 0, true⟩ := by
  have h := C6_Backspace_behavior ⟨DefaultCursor, ['a', 'b'], 1, false⟩ (by decide)
  have h0 := C6_Backspace_behavior ⟨DefaultCursor, ['a', 'b'], 0, true⟩ (by decide)
  refine ⟨?_, ?_, h0.1 rfl⟩
  · rw [(h.2 (by decide)).1]; rfl
  · rw [(h.2 (by decide)).2]; rfl

/-- C7: for every state with 0 < Position ≤ length Input, `Backspace`
followed by `Update` with the one-character string that was removed
restores both the buffer contents and the Position to exactly their values
before the `Backspace`. -/
theorem C7_backspace_update_roundtrip (c : Cursor) (h : posInv c)
    (hp : 0 < c.Position) (hlt : c.Position.toNat - 1 < c.Input.length) :
    (Update (Backspace c)
        (String.mk [c.Input.get ⟨c.Position.toNat - 1, hlt⟩])).Input = c.Input
    ∧ (Update (Backspace c)
        (String.mk [c.Input.get ⟨c.Position.toNat - 1, hlt⟩])).Position
        = c.Position := by
  obtain ⟨h0, h1⟩ := h
  have hbP := Backspace_Position c ⟨h0, h1⟩ hp
  have hbI := Backspace_Input c ⟨h0, h1⟩ hp
  constructor
  · rw [Update_Input, hbI, hbP]
    have hnn : (c.Position - 1).toNat = c.Position.toNat - 1 := by omega
    rw [hnn]
    have hlen : (c.Input.take (c.Position.toNat - 1)).length = c.Position.toNat - 1 := by
      rw [List.length_take]
      omega
    rw [List.take_left' hlen, List.drop_left' hlen]
    show c.Input.take (c.Position.toNat - 1)
        ++ [c.Input.get ⟨c.Position.toNat - 1, hlt⟩]
        ++ c.Input.drop c.Position.toNat = c.Input
    simp only [List.get_eq_getElem]
    rw [List.take_concat_get' _ _ hlt]
    have hn : c.Position.toNat - 1 + 1 = c.Position.toNat := by omega
    rw [hn, List.take_append_drop]
  · rw [Update_Position _ (posInv_Backspace c) _, hbP]
    have hone : (String.mk [c.Input.get ⟨c.Position.toNat - 1, hlt⟩]).length = 1 := rfl
    rw [hone]
    omega

/-- C7 witness: from buffer "abc" with Position 2, backspace removes "b" and
re-inserting "b" restores buffer "abc" and Position 2. -/
theorem C7_backspace_update_roundtrip_witness :
    (Update (Backspace ⟨DefaultCursor, ['a', 'b', 'c'], 2, false⟩)
        (String.mk ['b'])).Input = ['a', 'b', 'c']
    ∧ (Update (Backspace ⟨DefaultCursor, ['a', 'b', 'c'], 2, false⟩)
        (String.mk ['b'])).Position = 2 :=
  C7_backspace_update_roundtrip ⟨DefaultCursor, ['a', 'b', 'c'], 2, false⟩
    (by decide) (by decide) (by decide)

/-- C8: for every state satisfying the position invariant and every string
t, `Update t` changes the buffer to the splice of t immediately before the
current Position and increases Position by the length of t, leaving the
caret immediately after the inserted text. -/
theorem C8_Update_splice (c : Cursor) (h : posInv c) (t : String) :
    (Update c t).Input
      = c.Input.take c.Position.toNat ++ t.toList ++ c.Input.drop c.Position.toNat
    ∧ (Update c t).Position = c.Position + (t.length : Int) :=
  ⟨Update_Input c t, Update_Position c h t⟩

/-- C8 witness: inserting "b" into buffer "ac" at Position 1 gives "abc"
with Position 2. -/
theorem C8_Update_splice_witness :
    (Update ⟨DefaultCursor, ['a', 'c'], 1, false⟩ (String.mk ['b'])).Input
        = ['a', 'b', 'c']
    ∧ (Update ⟨DefaultCursor, ['a', 'c'], 1, false⟩ (String.mk ['b'])).Position = 2 := by
  have h := C8_Update_splice ⟨DefaultCursor, ['a', 'c'], 1, false⟩ (by decide)
    (String.mk ['b'])
  refine ⟨by rw [h.1]; rfl, by rw [h.2]; rfl⟩

end Promptui
